import Mathlib

/-!
Verification of the utility module `fqf_iqn/utils.py` of the IQN_Agent
repository, a grab-bag of training-loop helpers: Huber and quantile-Huber
losses, quantile gathering by action, a running-mean tracker, a linear
annealer and a stepwise learning-rate sweeper.

Modelling conventions:
* torch tensors are embedded as a shape together with a total index
  function into `ℚ` (real-valued entries are modelled by rationals; the
  claims are about the closed-form arithmetic, not float rounding);
* elementwise torch operations act on the index function, `sum(dim=1)`
  and `mean()` become `Finset.range` sums;
* Python `assert` failures are modelled by `Option` (constructors,
  `LinearAnneaer.get`) or by a returned `Bool` flag paired with the
  post-exception state (`LRSweeper.step`/`set_lr`, where Python mutates
  fields before the assertion fires and the mutation survives the
  exception);
* autograd bookkeeping (`requires_grad`, `detach`) has no numerical
  content and is not modelled.
-/

namespace IQN

/-- A rank-3 torch tensor of shape `(batch, dim1, dim2)`: entries are a
total function of the index triple. -/
structure Tensor3 where
  batch : ℕ
  dim1 : ℕ
  dim2 : ℕ
  val : ℕ → ℕ → ℕ → ℚ

/-- A rank-2 torch tensor of shape `(batch, dim1)`. -/
structure Tensor2 where
  batch : ℕ
  dim1 : ℕ
  val : ℕ → ℕ → ℚ

/-- An integer action tensor with one action index per batch element
(the `(batch, 1)` actions tensor of the source, with the trailing
singleton dimension dropped). -/
structure ActionTensor where
  batch : ℕ
  val : ℕ → ℕ

/-- Scalar body of `torch.where(td_errors.abs() <= kappa,
0.5 * td_errors.pow(2), kappa * (td_errors.abs() - 0.5 * kappa))`. -/
def huberScalar (kappa e : ℚ) : ℚ :=
  if |e| ≤ kappa then (1/2) * e^2 else kappa * (|e| - (1/2) * kappa)

/-- Translation of `calculate_huber_loss(td_errors, kappa)`: the elementwise Huber loss. -/
def calculate_huber_loss (td_errors : Tensor3) (kappa : ℚ) : Tensor3 :=
  { td_errors with val := fun b t j => huberScalar kappa (td_errors.val b t j) }

/-- Torch `x.sum(dim=1)` on a rank-3 tensor: sums out the middle axis. -/
def Tensor3.sumDim1 (x : Tensor3) : Tensor2 :=
  { batch := x.batch, dim1 := x.dim2,
    val := fun b j => ∑ t ∈ Finset.range x.dim1, x.val b t j }

/-- Torch `x.mean()` on a rank-2 tensor: the sum of all entries divided by the
number of entries. -/
def Tensor2.mean (x : Tensor2) : ℚ :=
  (∑ b ∈ Finset.range x.batch, ∑ j ∈ Finset.range x.dim1, x.val b j)
    / ((x.batch : ℚ) * (x.dim1 : ℚ))

/-- Translation of `calculate_quantile_huber_loss(td_errors, taus, kappa)`.  The source
checks `not taus.requires_grad` (autograd bookkeeping, not modelled),
forms the elementwise Huber loss, weights it by
`|taus[..., None] - (td_errors.detach() < 0).float()| / kappa`
(`taus` of shape `(batch, num_taus)` broadcast along the last axis),
sums over `dim=1` and takes the mean. -/
def calculate_quantile_huber_loss (td_errors : Tensor3) (taus : Tensor2)
    (kappa : ℚ) : ℚ :=
  let element_wise_huber_loss := calculate_huber_loss td_errors kappa
  let element_wise_quantile_huber_loss : Tensor3 :=
    { td_errors with
      val := fun b t j =>
        |taus.val b t - (if td_errors.val b t j < 0 then 1 else 0)|
          * element_wise_huber_loss.val b t j / kappa }
  element_wise_quantile_huber_loss.sumDim1.mean

/-- Modelled from the spec's wording for comparison with the source
translation: "weights the elementwise huber loss by
`|tau - 1{error<0}| / kappa`, sums over the middle axis, averages over
remaining axes". -/
def specQuantileHuberLoss (td_errors : Tensor3) (taus : Tensor2)
    (kappa : ℚ) : ℚ :=
  (∑ b ∈ Finset.range td_errors.batch, ∑ j ∈ Finset.range td_errors.dim2,
      ∑ t ∈ Finset.range td_errors.dim1,
        |taus.val b t - (if td_errors.val b t j < 0 then 1 else 0)| / kappa
          * huberScalar kappa (td_errors.val b t j))
    / ((td_errors.batch : ℚ) * (td_errors.dim2 : ℚ))

/-- Translation of `evaluate_quantile_at_action(s_quantiles, actions)`: asserts that the
batch dimensions agree, expands actions to `(batch, num_taus, 1)` and
gathers along `dim=2`, so entry `[b][t][0]` of the result is
`s_quantiles[b][t][actions[b]]`. -/
def evaluate_quantile_at_action (s_quantiles : Tensor3)
    (actions : ActionTensor) : Option Tensor3 :=
  if s_quantiles.batch = actions.batch then
    some { batch := s_quantiles.batch, dim1 := s_quantiles.dim1, dim2 := 1,
           val := fun b t _ => s_quantiles.val b t (actions.val b) }
  else
    none

/-- State of `RunningMeanStats`: a capacity `n` together with the current buffer,
a Python `deque(maxlen=n)` holding the samples in append order. -/
structure RunningMeanStats where
  n : ℕ
  stats : List ℚ
deriving DecidableEq

/-- Constructor `RunningMeanStats.__init__(n)`: empty deque of capacity `n`. -/
def RunningMeanStats.make (n : ℕ) : RunningMeanStats :=
  { n := n, stats := [] }

/-- Method `RunningMeanStats.append(x)`: `deque.append` with `maxlen=n` pushes
`x` on the right and evicts from the left anything past the capacity. -/
def RunningMeanStats.append (s : RunningMeanStats) (x : ℚ) : RunningMeanStats :=
  { s with stats := (s.stats ++ [x]).drop ((s.stats.length + 1) - s.n) }

/-- Method `RunningMeanStats.get()`: `np.mean(self.stats)`, the sum of the buffer
divided by its length (`NaN` on an empty buffer in numpy; here the
rational division by zero). -/
def RunningMeanStats.get (s : RunningMeanStats) : ℚ :=
  s.stats.sum / (s.stats.length : ℚ)

/-- Appending a whole list of samples in order. -/
def RunningMeanStats.appendAll (s : RunningMeanStats) (xs : List ℚ) :
    RunningMeanStats :=
  xs.foldl RunningMeanStats.append s

/-- State of `LinearAnneaer`: the step counter and the constructor's fields,
with `a = (end_value - start_value) / num_steps` and `b = start_value`. -/
structure LinearAnneaer where
  steps : ℕ
  start_value : ℚ
  end_value : ℚ
  num_steps : ℕ
  a : ℚ
  b : ℚ
deriving DecidableEq

/-- Constructor `LinearAnneaer.__init__`: asserts `num_steps > 0` (and that it is an
`int`, which the `ℕ` type carries), zeroes the counter and precomputes
the affine coefficients. -/
def LinearAnneaer.make (start_value end_value : ℚ) (num_steps : ℕ) :
    Option LinearAnneaer :=
  if 0 < num_steps then
    some { steps := 0, start_value := start_value, end_value := end_value,
           num_steps := num_steps,
           a := (end_value - start_value) / (num_steps : ℚ),
           b := start_value }
  else
    none

/-- Method `LinearAnneaer.step()`: `self.steps = min(self.num_steps, self.steps + 1)`. -/
def LinearAnneaer.step (s : LinearAnneaer) : LinearAnneaer :=
  { s with steps := min s.num_steps (s.steps + 1) }

/-- Method `LinearAnneaer.get()`: asserts `0 < steps <= num_steps` (`none` on
failure) and returns `a * steps + b`. -/
def LinearAnneaer.get (s : LinearAnneaer) : Option ℚ :=
  if 0 < s.steps ∧ s.steps ≤ s.num_steps then
    some (s.a * (s.steps : ℚ) + s.b)
  else
    none

/-- Iterating `k` successive calls to `LinearAnneaer.step`. -/
def LinearAnneaer.stepIter (s : LinearAnneaer) : ℕ → LinearAnneaer
  | 0 => s
  | k + 1 => (s.stepIter k).step

/-- An optimizer, reduced to what the sweeper touches: the `'lr'` entry
of each of its parameter groups. -/
structure Optimizer where
  param_groups : List ℚ
deriving DecidableEq

/-- State of `LRSweeper`: the optimizer, the constructor arguments and the
mutable fields `steps`, `index`, `n = len(values)` and the cached `lr`. -/
structure LRSweeper where
  optimizer : Optimizer
  values : List ℚ
  interval : ℕ
  steps : ℕ
  index : ℕ
  n : ℕ
  lr : ℚ
deriving DecidableEq

/-- Method `LRSweeper.set_lr()`: asserts `0 <= self.index < self.n`, then writes
`values[index]` into every parameter group and into `self.lr`.  The
returned flag is `true` when the assertion (or the list access) fails;
the state is then returned unchanged, since the method mutates nothing
before its assertion. -/
def LRSweeper.set_lr (s : LRSweeper) : LRSweeper × Bool :=
  if s.index < s.n then
    if h : s.index < s.values.length then
      let v := s.values.get ⟨s.index, h⟩
      ({ s with optimizer := ⟨s.optimizer.param_groups.map (fun _ => v)⟩,
                lr := v }, false)
    else
      (s, true)
  else
    (s, true)

/-- Constructor `LRSweeper.__init__(optimizer, values, interval)`: asserts that
`values` is a list/tuple (carried by the `List` type) and
`interval` is a positive `int`, zeroes `steps` and `index`, sets
`n = len(values)` and calls `set_lr`.  `none` when an assertion fails
(in particular `set_lr`'s bound check fails on an empty `values`); the
`lr` field placeholder `0` is only visible in that discarded case. -/
def LRSweeper.make (optimizer : Optimizer) (values : List ℚ)
    (interval : ℕ) : Option LRSweeper :=
  if 0 < interval then
    let s : LRSweeper :=
      { optimizer := optimizer, values := values, interval := interval,
        steps := 0, index := 0, n := values.length, lr := 0 }
    match s.set_lr with
    | (s', false) => some s'
    | (_, true) => none
  else
    none

/-- Method `LRSweeper.step()`.  The source opens with the no-op branch
`if self.index == self.n - 1: pass`, then increments `steps` and, every
`interval` steps, increments `index` and calls `set_lr`.  The returned
flag reports an assertion failure inside `set_lr`; the state returned
with it keeps the `steps` and `index` mutations, exactly as the Python
object does when the assertion raises. -/
def LRSweeper.step (s : LRSweeper) : LRSweeper × Bool :=
  let s1 := { s with steps := s.steps + 1 }
  if s1.steps % s1.interval = 0 then
    LRSweeper.set_lr { s1 with index := s1.index + 1 }
  else
    (s1, false)

/-- Method `LRSweeper.get()`: returns the cached `self.lr`. -/
def LRSweeper.get (s : LRSweeper) : ℚ :=
  s.lr

/-- Iterating `k` successive calls to `LRSweeper.step`, recording the final state
and whether any call raised. -/
def LRSweeper.stepsIter (s : LRSweeper) : ℕ → LRSweeper × Bool
  | 0 => (s, false)
  | k + 1 =>
      let p := s.stepsIter k
      let q := p.1.step
      (q.1, p.2 || q.2)

/-- The state an `LRSweeper` built over `optimizer`, `values`, `interval`
reaches after `k` non-raising calls to `step`: `steps = k`,
`index = k / interval`, and the learning rate `values[k / interval]`
written to the cache and to every parameter group. -/
def LRSweeper.expectedState (optimizer : Optimizer) (values : List ℚ)
    (interval k : ℕ) : LRSweeper :=
  { optimizer := ⟨optimizer.param_groups.map
      (fun _ => values.getD (k / interval) 0)⟩,
    values := values, interval := interval, steps := k,
    index := k / interval, n := values.length,
    lr := values.getD (k / interval) 0 }

/-- Concrete error tensor used by witnesses. -/
def exTd : Tensor3 :=
  { batch := 1, dim1 := 2, dim2 := 2,
    val := fun _ t j => if t = j then 1 else -1 }

/-- Concrete taus tensor used by witnesses. -/
def exTaus : Tensor2 :=
  { batch := 1, dim1 := 2, val := fun _ t => ((t : ℚ) + 1) / 3 }

/-- Concrete quantile tensor used by witnesses. -/
def exQ : Tensor3 :=
  { batch := 1, dim1 := 1, dim2 := 2, val := fun _ _ j => (j : ℚ) }

/-- Concrete action tensor used by witnesses. -/
def exA : ActionTensor :=
  { batch := 1, val := fun _ => 1 }

/-- The state `LinearAnneaer(0, 10, 5)` constructs, used by witnesses. -/
def exAnneaer : LinearAnneaer :=
  { steps := 0, start_value := 0, end_value := 10, num_steps := 5,
    a := 2, b := 0 }

/-- The state `LRSweeper(opt, [0.1, 0.01], 2)` constructs over a
one-group optimizer, used by witnesses. -/
def exSweeper : LRSweeper :=
  { optimizer := ⟨[1/10]⟩, values := [1/10, 1/100], interval := 2,
    steps := 0, index := 0, n := 2, lr := 1/10 }

/-- The state `LRSweeper(opt, [0.1], 1)` constructs over a one-group
optimizer, used by the C2 failing-input theorem and the C10 witness. -/
def exSweeper1 : LRSweeper :=
  { optimizer := ⟨[1/10]⟩, values := [1/10], interval := 1,
    steps := 0, index := 0, n := 1, lr := 1/10 }

lemma huberScalar_nonneg {kappa : ℚ} (hκ : 0 ≤ kappa) (e : ℚ) :
    0 ≤ huberScalar kappa e := by
  unfold huberScalar
  split_ifs with h
  · positivity
  · push_neg at h
    nlinarith [abs_nonneg e]

lemma huberScalar_zero {kappa : ℚ} (hκ : 0 ≤ kappa) :
    huberScalar kappa 0 = 0 := by
  unfold huberScalar
  rw [if_pos (by simpa using hκ)]
  ring

/-- Claim C3: `calculate_huber_loss` keeps the shape of its input and
returns, elementwise, `0.5*e^2` where `|e| ≤ kappa` and
`kappa*(|e| - 0.5*kappa)` elsewhere, as a pure function of its inputs. -/
theorem claim_C3 (td_errors : Tensor3) (kappa : ℚ) :
    (calculate_huber_loss td_errors kappa).batch = td_errors.batch ∧
    (calculate_huber_loss td_errors kappa).dim1 = td_errors.dim1 ∧
    (calculate_huber_loss td_errors kappa).dim2 = td_errors.dim2 ∧
    ∀ b t j,
      (calculate_huber_loss td_errors kappa).val b t j =
        if |td_errors.val b t j| ≤ kappa then
          (1/2) * (td_errors.val b t j)^2
        else
          kappa * (|td_errors.val b t j| - (1/2) * kappa) :=
  ⟨rfl, rfl, rfl, fun _ _ _ => rfl⟩

/-- Claim C4: for `kappa > 0` every element of `calculate_huber_loss` is
non-negative, and at `|e| = kappa` the two branch formulas agree and both
equal `0.5*kappa^2`, so the elementwise function is continuous at the
branch boundary. -/
theorem claim_C4 (td_errors : Tensor3) (kappa : ℚ) (hκ : 0 < kappa) :
    (∀ b t j, 0 ≤ (calculate_huber_loss td_errors kappa).val b t j) ∧
    ∀ e : ℚ, |e| = kappa →
      huberScalar kappa e = (1/2) * e^2 ∧
      huberScalar kappa e = kappa * (|e| - (1/2) * kappa) ∧
      huberScalar kappa e = (1/2) * kappa^2 := by
  constructor
  · intro b t j
    exact huberScalar_nonneg hκ.le _
  · intro e he
    have hle : |e| ≤ kappa := he.le
    have h1 : huberScalar kappa e = (1/2) * e^2 := if_pos hle
    have h2 : (1/2) * e^2 = (1/2) * kappa^2 := by
      rw [← sq_abs, he]
    refine ⟨h1, ?_, by rw [h1, h2]⟩
    rw [h1, h2, he]
    ring

/-- Claim C4 witness at `kappa = 1` on a concrete tensor. -/
theorem claim_C4_witness :
    (0 : ℚ) < 1 ∧
    ((∀ b t j, 0 ≤ (calculate_huber_loss exTd 1).val b t j) ∧
     ∀ e : ℚ, |e| = 1 →
       huberScalar 1 e = (1/2) * e^2 ∧
       huberScalar 1 e = 1 * (|e| - (1/2) * 1) ∧
       huberScalar 1 e = (1/2) * 1^2) :=
  ⟨by norm_num, claim_C4 exTd 1 (by norm_num)⟩

/-- Claim C1: for `kappa > 0` the quantile Huber loss is a non-negative
scalar, it is zero when every entry of the error tensor is zero, and it
equals the spec's formula: the elementwise Huber loss weighted by
`|tau - 1{error<0}| / kappa`, summed over the middle axis and averaged
over the remaining axes.  (The source's `assert not taus.requires_grad`
is autograd bookkeeping with no numerical content.) -/
theorem claim_C1 (td_errors : Tensor3) (taus : Tensor2) (kappa : ℚ)
    (hκ : 0 < kappa) :
    0 ≤ calculate_quantile_huber_loss td_errors taus kappa ∧
    ((∀ b t j, b < td_errors.batch → t < td_errors.dim1 →
        j < td_errors.dim2 → td_errors.val b t j = 0) →
      calculate_quantile_huber_loss td_errors taus kappa = 0) ∧
    calculate_quantile_huber_loss td_errors taus kappa =
      specQuantileHuberLoss td_errors taus kappa := by
  refine ⟨?_, ?_, ?_⟩
  · simp only [calculate_quantile_huber_loss, Tensor2.mean, Tensor3.sumDim1,
      calculate_huber_loss]
    apply div_nonneg
    · refine Finset.sum_nonneg fun b _ => ?_
      refine Finset.sum_nonneg fun j _ => ?_
      refine Finset.sum_nonneg fun t _ => ?_
      exact div_nonneg
        (mul_nonneg (abs_nonneg _) (huberScalar_nonneg hκ.le _)) hκ.le
    · positivity
  · intro h0
    simp only [calculate_quantile_huber_loss, Tensor2.mean, Tensor3.sumDim1,
      calculate_huber_loss]
    have hz : ∀ b ∈ Finset.range td_errors.batch,
        (∑ j ∈ Finset.range td_errors.dim2,
          ∑ t ∈ Finset.range td_errors.dim1,
            |taus.val b t - (if td_errors.val b t j < 0 then 1 else 0)|
              * huberScalar kappa (td_errors.val b t j) / kappa) = 0 := by
      intro b hb
      refine Finset.sum_eq_zero fun j hj => ?_
      refine Finset.sum_eq_zero fun t ht => ?_
      rw [h0 b t j (Finset.mem_range.mp hb) (Finset.mem_range.mp ht)
        (Finset.mem_range.mp hj), huberScalar_zero hκ.le]
      ring
    rw [Finset.sum_congr rfl hz]
    simp
  · simp only [calculate_quantile_huber_loss, specQuantileHuberLoss,
      Tensor2.mean, Tensor3.sumDim1, calculate_huber_loss]
    congr 1
    refine Finset.sum_congr rfl fun b _ => ?_
    refine Finset.sum_congr rfl fun j _ => ?_
    refine Finset.sum_congr rfl fun t _ => ?_
    ring

/-- Claim C1 witness at `kappa = 1` on concrete tensors. -/
theorem claim_C1_witness :
    (0 : ℚ) < 1 ∧
    (0 ≤ calculate_quantile_huber_loss exTd exTaus 1 ∧
     ((∀ b t j, b < exTd.batch → t < exTd.dim1 → j < exTd.dim2 →
         exTd.val b t j = 0) →
       calculate_quantile_huber_loss exTd exTaus 1 = 0) ∧
     calculate_quantile_huber_loss exTd exTaus 1 =
       specQuantileHuberLoss exTd exTaus 1) :=
  ⟨by norm_num, claim_C1 exTd exTaus 1 (by norm_num)⟩

/-- Claim C5: when the batch dimensions agree and every action index is a
valid column, `evaluate_quantile_at_action` succeeds with a tensor of
shape `(batch, num_taus, 1)` whose entry at `[b][t][0]` is the input's
entry at `[b][t][actions[b]]`. -/
theorem claim_C5 (s_quantiles : Tensor3) (actions : ActionTensor)
    (hb : s_quantiles.batch = actions.batch)
    (hvalid : ∀ b, b < actions.batch →
      actions.val b < s_quantiles.dim2) :
    ∃ out, evaluate_quantile_at_action s_quantiles actions = some out ∧
      out.batch = s_quantiles.batch ∧ out.dim1 = s_quantiles.dim1 ∧
      out.dim2 = 1 ∧
      ∀ b t, out.val b t 0 = s_quantiles.val b t (actions.val b) := by
  unfold evaluate_quantile_at_action
  rw [if_pos hb]
  exact ⟨_, rfl, rfl, rfl, rfl, fun _ _ => rfl⟩

/-- Claim C5 witness on a concrete quantile tensor and action tensor. -/
theorem claim_C5_witness :
    exQ.batch = exA.batch ∧
    (∀ b, b < exA.batch → exA.val b < exQ.dim2) ∧
    ∃ out, evaluate_quantile_at_action exQ exA = some out ∧
      out.batch = exQ.batch ∧ out.dim1 = exQ.dim1 ∧ out.dim2 = 1 ∧
      ∀ b t, out.val b t 0 = exQ.val b t (exA.val b) :=
  ⟨rfl, fun _ _ => Nat.one_lt_two,
   claim_C5 exQ exA rfl (fun _ _ => Nat.one_lt_two)⟩

lemma drop_append_drop {α : Type} (l r : List α) (d k : ℕ)
    (hd : d ≤ l.length) :
    (l.drop d ++ r).drop k = (l ++ r).drop (d + k) := by
  have h2 : (l ++ r).drop d = l.drop d ++ r := by
    rw [List.drop_append_eq_append_drop, Nat.sub_eq_zero_of_le hd,
      List.drop_zero]
  rw [← h2, List.drop_drop, Nat.add_comm]

lemma RunningMeanStats.appendAll_spec (xs : List ℚ) :
    ∀ s : RunningMeanStats, s.stats.length ≤ s.n →
      (s.appendAll xs).n = s.n ∧
      (s.appendAll xs).stats =
        (s.stats ++ xs).drop (s.stats.length + xs.length - s.n) := by
  induction xs with
  | nil =>
      intro s h
      refine ⟨rfl, ?_⟩
      simp only [RunningMeanStats.appendAll, List.foldl_nil, List.append_nil,
        List.length_nil, Nat.add_zero]
      rw [Nat.sub_eq_zero_of_le h, List.drop_zero]
  | cons x rest ih =>
      intro s h
      have hfold : s.appendAll (x :: rest) = (s.append x).appendAll rest := rfl
      have hn' : (s.append x).n = s.n := rfl
      have hstats' : (s.append x).stats =
          (s.stats ++ [x]).drop (s.stats.length + 1 - s.n) := rfl
      have hlen' : (s.append x).stats.length =
          (s.stats.length + 1) - (s.stats.length + 1 - s.n) := by
        rw [hstats', List.length_drop, List.length_append,
          List.length_singleton]
      have h' : (s.append x).stats.length ≤ (s.append x).n := by
        rw [hlen', hn']; omega
      obtain ⟨ihn, ihstats⟩ := ih (s.append x) h'
      refine ⟨by rw [hfold, ihn, hn'], ?_⟩
      rw [hfold, ihstats, hn', hlen', hstats']
      rw [drop_append_drop _ _ _ _
        (by rw [List.length_append, List.length_singleton]; omega)]
      have harr : s.stats ++ [x] ++ rest = s.stats ++ x :: rest := by simp
      rw [harr]
      congr 1
      simp only [List.length_cons]
      omega

/-- Claim C7: a `RunningMeanStats` buffer holds exactly the last
`min(k, n)` of the `k` appended samples in append order, its length never
exceeds `n`, `get` is the arithmetic mean of the buffer, and with `n = 3`
appending `1, 2, 3, 4` leaves the buffer `[2, 3, 4]` with mean `3`. -/
theorem claim_C7 (n : ℕ) (xs : List ℚ) :
    ((RunningMeanStats.make n).appendAll xs).stats =
      xs.drop (xs.length - n) ∧
    ((RunningMeanStats.make n).appendAll xs).stats.length =
      min xs.length n ∧
    ((RunningMeanStats.make n).appendAll xs).stats.length ≤ n ∧
    ((RunningMeanStats.make n).appendAll xs).get =
      ((RunningMeanStats.make n).appendAll xs).stats.sum /
        ((((RunningMeanStats.make n).appendAll xs).stats.length : ℕ) : ℚ) ∧
    ((RunningMeanStats.make 3).appendAll [1, 2, 3, 4]).stats = [2, 3, 4] ∧
    ((RunningMeanStats.make 3).appendAll [1, 2, 3, 4]).get = 3 := by
  obtain ⟨-, hstats⟩ := RunningMeanStats.appendAll_spec xs
    (RunningMeanStats.make n) (by simp [RunningMeanStats.make])
  have hs : ((RunningMeanStats.make n).appendAll xs).stats =
      xs.drop (xs.length - n) := by
    simpa [RunningMeanStats.make] using hstats
  have hbuf : ((RunningMeanStats.make 3).appendAll [1, 2, 3, 4]).stats =
      [2, 3, 4] := by decide
  have hget3 : ((RunningMeanStats.make 3).appendAll [1, 2, 3, 4]).get = 3 := by
    rw [RunningMeanStats.get, hbuf]
    norm_num [List.sum_cons, List.sum_nil]
  refine ⟨hs, ?_, ?_, rfl, hbuf, hget3⟩
  · rw [hs, List.length_drop]; omega
  · rw [hs, List.length_drop]; omega

lemma LinearAnneaer.stepIter_fields (s : LinearAnneaer) (k : ℕ) :
    (s.stepIter k).num_steps = s.num_steps ∧
    (s.stepIter k).a = s.a ∧ (s.stepIter k).b = s.b := by
  induction k with
  | zero => exact ⟨rfl, rfl, rfl⟩
  | succ k ih => simpa [LinearAnneaer.stepIter, LinearAnneaer.step] using ih

lemma LinearAnneaer.stepIter_steps (s : LinearAnneaer) (h0 : s.steps = 0)
    (k : ℕ) : (s.stepIter k).steps = min k s.num_steps := by
  induction k with
  | zero => simpa [LinearAnneaer.stepIter] using h0
  | succ k ih =>
      have hN : (s.stepIter k).num_steps = s.num_steps :=
        (LinearAnneaer.stepIter_fields s k).1
      show min (s.stepIter k).num_steps ((s.stepIter k).steps + 1) =
        min (k + 1) s.num_steps
      rw [hN, ih]
      omega

lemma LinearAnneaer.make_fields (sv ev : ℚ) (N : ℕ) (st0 : LinearAnneaer)
    (h0 : LinearAnneaer.make sv ev N = some st0) :
    0 < N ∧ st0.steps = 0 ∧ st0.num_steps = N ∧
      st0.a = (ev - sv) / (N : ℚ) ∧ st0.b = sv := by
  by_cases hN : 0 < N
  · rw [LinearAnneaer.make, if_pos hN] at h0
    obtain rfl := (Option.some.injEq _ _).mp h0
    exact ⟨hN, rfl, rfl, rfl, rfl⟩
  · rw [LinearAnneaer.make, if_neg hN] at h0
    exact Option.noConfusion h0

lemma LinearAnneaer.get_after (sv ev : ℚ) (N : ℕ) (st0 : LinearAnneaer)
    (h0 : LinearAnneaer.make sv ev N = some st0) (k : ℕ) (hk : 1 ≤ k) :
    (st0.stepIter k).get =
      some (sv + (ev - sv) * ((min k N : ℕ) : ℚ) / (N : ℚ)) := by
  obtain ⟨hN, hs0, hNum, ha, hb⟩ := LinearAnneaer.make_fields sv ev N st0 h0
  obtain ⟨hNf, haf, hbf⟩ := LinearAnneaer.stepIter_fields st0 k
  have hsteps : (st0.stepIter k).steps = min k N := by
    rw [LinearAnneaer.stepIter_steps st0 hs0 k, hNum]
  rw [LinearAnneaer.get, if_pos (by rw [hsteps, hNf, hNum]; omega :
    0 < (st0.stepIter k).steps ∧
      (st0.stepIter k).steps ≤ (st0.stepIter k).num_steps)]
  rw [hsteps, haf, hbf, ha, hb]
  congr 1
  ring

lemma exAnneaer_make : LinearAnneaer.make 0 10 5 = some exAnneaer := by
  rw [LinearAnneaer.make, if_pos (by norm_num)]
  simp only [Option.some.injEq, exAnneaer, LinearAnneaer.mk.injEq]
  norm_num

lemma exAnneaer_concrete :
    (LinearAnneaer.make 0 10 5).map
      (fun st => ((st.stepIter 1).get, (st.stepIter 5).get)) =
      some (some 2, some 10) := by
  rw [exAnneaer_make, Option.map_some']
  rw [LinearAnneaer.get_after 0 10 5 exAnneaer exAnneaer_make 1 (le_refl 1)]
  rw [LinearAnneaer.get_after 0 10 5 exAnneaer exAnneaer_make 5 (by norm_num)]
  norm_num [Nat.min_def]

/-- Claim C6: after `k ≥ 1` calls to `step`, a `LinearAnneaer` built from
`(start_value, end_value, num_steps)` returns
`start_value + (end_value - start_value) * min(k, num_steps) / num_steps`
from `get`; the value never leaves the range between `start_value` and
`end_value`, the counter only increases and is capped at `num_steps`, and
`LinearAnneaer(0, 10, 5)` returns `2` after one step and `10` after five. -/
theorem claim_C6 (sv ev : ℚ) (N : ℕ) (k : ℕ) (hk : 1 ≤ k)
    (st0 : LinearAnneaer) (h0 : LinearAnneaer.make sv ev N = some st0) :
    (st0.stepIter k).get =
      some (sv + (ev - sv) * ((min k N : ℕ) : ℚ) / (N : ℚ)) ∧
    (∀ v, (st0.stepIter k).get = some v →
      min sv ev ≤ v ∧ v ≤ max sv ev) ∧
    (st0.stepIter k).steps ≤ (st0.stepIter (k + 1)).steps ∧
    (st0.stepIter k).steps ≤ N ∧
    (LinearAnneaer.make 0 10 5).map
        (fun st => ((st.stepIter 1).get, (st.stepIter 5).get)) =
      some (some 2, some 10) := by
  obtain ⟨hN, hs0, hNum, -, -⟩ := LinearAnneaer.make_fields sv ev N st0 h0
  have hsteps : ∀ m, (st0.stepIter m).steps = min m N := fun m => by
    rw [LinearAnneaer.stepIter_steps st0 hs0 m, hNum]
  have hget := LinearAnneaer.get_after sv ev N st0 h0 k hk
  refine ⟨hget, ?_, ?_, ?_, exAnneaer_concrete⟩
  · intro v hv
    rw [hget, Option.some.injEq] at hv
    have hm1 : (1 : ℚ) ≤ ((min k N : ℕ) : ℚ) := by
      have : 1 ≤ min k N := by omega
      exact_mod_cast this
    have hmN : ((min k N : ℕ) : ℚ) ≤ (N : ℚ) := by
      have : min k N ≤ N := by omega
      exact_mod_cast this
    have hN' : (0 : ℚ) < (N : ℚ) := by exact_mod_cast hN
    have hc0 : 0 ≤ ((min k N : ℕ) : ℚ) / (N : ℚ) := by positivity
    have hc1 : ((min k N : ℕ) : ℚ) / (N : ℚ) ≤ 1 :=
      (div_le_one hN').mpr hmN
    have hv' : v = sv + (ev - sv) * (((min k N : ℕ) : ℚ) / (N : ℚ)) := by
      rw [← hv]; ring
    rcases le_total sv ev with hle | hle
    · rw [min_eq_left hle, max_eq_right hle]
      constructor <;> nlinarith
    · rw [min_eq_right hle, max_eq_left hle]
      constructor <;> nlinarith
  · rw [hsteps k, hsteps (k + 1)]; omega
  · rw [hsteps k]; omega

/-- Claim C6 witness: `LinearAnneaer(0, 10, 5)` after one `step`. -/
theorem claim_C6_witness :
    1 ≤ 1 ∧ LinearAnneaer.make 0 10 5 = some exAnneaer ∧
    ((exAnneaer.stepIter 1).get =
      some (0 + (10 - 0) * ((min 1 5 : ℕ) : ℚ) / ((5 : ℕ) : ℚ)) ∧
    (∀ v, (exAnneaer.stepIter 1).get = some v →
      min (0 : ℚ) 10 ≤ v ∧ v ≤ max (0 : ℚ) 10) ∧
    (exAnneaer.stepIter 1).steps ≤ (exAnneaer.stepIter 2).steps ∧
    (exAnneaer.stepIter 1).steps ≤ 5 ∧
    (LinearAnneaer.make 0 10 5).map
        (fun st => ((st.stepIter 1).get, (st.stepIter 5).get)) =
      some (some 2, some 10)) :=
  ⟨le_refl 1, exAnneaer_make,
   claim_C6 0 10 5 1 (le_refl 1) exAnneaer exAnneaer_make⟩

/-- Claim C9: `LinearAnneaer.get` fails exactly when the counter is `0`
or exceeds `num_steps`, and on every state reachable from the constructor
the counter stays at most `num_steps`, so `get` fails exactly when no
`step` call has been made. -/
theorem claim_C9 :
    (∀ st : LinearAnneaer, st.get = none ↔
      (st.steps = 0 ∨ st.num_steps < st.steps)) ∧
    ∀ (sv ev : ℚ) (N : ℕ) (st0 : LinearAnneaer),
      LinearAnneaer.make sv ev N = some st0 →
      ∀ k : ℕ, (st0.stepIter k).steps ≤ N ∧
        ((st0.stepIter k).get = none ↔ k = 0) := by
  constructor
  · intro st
    by_cases h : 0 < st.steps ∧ st.steps ≤ st.num_steps
    · rw [LinearAnneaer.get, if_pos h]
      constructor
      · intro hc
        exact Option.noConfusion hc
      · intro hc
        exact absurd hc (by omega)
    · rw [LinearAnneaer.get, if_neg h]
      push_neg at h
      constructor
      · intro _
        omega
      · intro _
        rfl
  · intro sv ev N st0 h0 k
    obtain ⟨hN, hs0, hNum, -, -⟩ := LinearAnneaer.make_fields sv ev N st0 h0
    have hsteps : (st0.stepIter k).steps = min k N := by
      rw [LinearAnneaer.stepIter_steps st0 hs0 k, hNum]
    have hNf := (LinearAnneaer.stepIter_fields st0 k).1
    refine ⟨by rw [hsteps]; omega, ?_⟩
    by_cases hk : k = 0
    · subst hk
      rw [LinearAnneaer.get, if_neg (by rw [hsteps]; omega)]
      simp
    · rw [LinearAnneaer.get, if_pos (by rw [hsteps, hNf, hNum]; omega :
        0 < (st0.stepIter k).steps ∧
          (st0.stepIter k).steps ≤ (st0.stepIter k).num_steps)]
      exact ⟨fun hc => Option.noConfusion hc, fun hc => absurd hc hk⟩

/-- Claim C9 witness: the reachable-state part at `LinearAnneaer(0, 10, 5)`
and `k = 1`. -/
theorem claim_C9_witness :
    LinearAnneaer.make 0 10 5 = some exAnneaer ∧
    ((exAnneaer.stepIter 1).steps ≤ 5 ∧
      ((exAnneaer.stepIter 1).get = none ↔ (1 : ℕ) = 0)) :=
  ⟨exAnneaer_make, claim_C9.2 0 10 5 exAnneaer exAnneaer_make 1⟩

lemma getD_eq_get (l : List ℚ) (i : ℕ) (h : i < l.length) :
    l.getD i 0 = l.get ⟨i, h⟩ := by
  rw [List.getD_eq_getElem l 0 h]
  rfl

lemma LRSweeper.make_eq (optimizer : Optimizer) (values : List ℚ)
    (interval : ℕ) (hi : 0 < interval) (hv : values ≠ []) :
    LRSweeper.make optimizer values interval =
      some (LRSweeper.expectedState optimizer values interval 0) := by
  have hn : 0 < values.length := List.length_pos.mpr hv
  have hval : values.getD 0 0 = values.get ⟨0, hn⟩ := getD_eq_get values 0 hn
  rw [LRSweeper.make, if_pos hi]
  have hset : LRSweeper.set_lr
      { optimizer := optimizer, values := values, interval := interval,
        steps := 0, index := 0, n := values.length, lr := 0 } =
      (LRSweeper.expectedState optimizer values interval 0, false) := by
    simp only [LRSweeper.set_lr]
    rw [if_pos hn, dif_pos hn]
    simp only [LRSweeper.expectedState, Nat.zero_div, hval]
  simp only [hset]

lemma LRSweeper.step_expected (optimizer : Optimizer) (values : List ℚ)
    (interval : ℕ) (hi : 0 < interval) (k : ℕ)
    (hk : k + 1 < values.length * interval) :
    (LRSweeper.expectedState optimizer values interval k).step =
      (LRSweeper.expectedState optimizer values interval (k + 1), false) := by
  have hlt : (k + 1) / interval < values.length :=
    (Nat.div_lt_iff_lt_mul hi).mpr hk
  by_cases hdvd : interval ∣ (k + 1)
  · have hmod : (k + 1) % interval = 0 := Nat.dvd_iff_mod_eq_zero.mp hdvd
    have hsucc : (k + 1) / interval = k / interval + 1 := by
      rw [Nat.succ_div, if_pos hdvd]
    have hidx : k / interval + 1 < values.length := by
      rw [← hsucc]; exact hlt
    have hval : values.getD (k / interval + 1) 0 =
        values.get ⟨k / interval + 1, hidx⟩ := getD_eq_get values _ hidx
    simp only [LRSweeper.step, LRSweeper.set_lr, LRSweeper.expectedState]
    rw [if_pos hmod, if_pos hidx, dif_pos hidx]
    simp only [hsucc, hval, List.map_map]
    rfl
  · have hmod : (k + 1) % interval ≠ 0 := fun h =>
      hdvd (Nat.dvd_iff_mod_eq_zero.mpr h)
    have hsucc : (k + 1) / interval = k / interval := by
      rw [Nat.succ_div, if_neg hdvd, Nat.add_zero]
    simp only [LRSweeper.step, LRSweeper.expectedState]
    rw [if_neg hmod]
    simp only [hsucc]

lemma LRSweeper.stepsIter_expected (optimizer : Optimizer) (values : List ℚ)
    (interval : ℕ) (hi : 0 < interval) (k : ℕ)
    (hk : k < values.length * interval) :
    (LRSweeper.expectedState optimizer values interval 0).stepsIter k =
      (LRSweeper.expectedState optimizer values interval k, false) := by
  induction k with
  | zero => rfl
  | succ k ih =>
      have hk' : k < values.length * interval := Nat.lt_of_succ_lt hk
      simp only [LRSweeper.stepsIter, ih hk',
        LRSweeper.step_expected optimizer values interval hi k hk,
        Bool.false_or]

/-- Claim C8: immediately after construction an `LRSweeper` returns
`values[0]` from `get` and has written `values[0]` into every optimizer
parameter group; after `k < len(values) * interval` calls to `step`
(none of which raises), `get` and the `lr` entry of every parameter
group equal `values[k / interval]`. -/
theorem claim_C8 (optimizer : Optimizer) (values : List ℚ) (interval : ℕ)
    (hi : 0 < interval) (hv : values ≠ []) (s0 : LRSweeper)
    (h0 : LRSweeper.make optimizer values interval = some s0) :
    (s0.get = values.getD 0 0 ∧
      ∀ g ∈ s0.optimizer.param_groups, g = values.getD 0 0) ∧
    ∀ k, k < values.length * interval →
      ((s0.stepsIter k).2 = false ∧
       (s0.stepsIter k).1.get = values.getD (k / interval) 0 ∧
       ∀ g ∈ (s0.stepsIter k).1.optimizer.param_groups,
         g = values.getD (k / interval) 0) := by
  have hs0 : s0 = LRSweeper.expectedState optimizer values interval 0 := by
    have hmk := LRSweeper.make_eq optimizer values interval hi hv
    rw [h0] at hmk
    exact (Option.some.injEq _ _).mp hmk
  subst hs0
  constructor
  · constructor
    · show values.getD (0 / interval) 0 = values.getD 0 0
      rw [Nat.zero_div]
    · intro g hg
      simp only [LRSweeper.expectedState, Nat.zero_div] at hg
      obtain ⟨a, -, rfl⟩ := List.mem_map.mp hg
      rfl
  · intro k hk
    rw [LRSweeper.stepsIter_expected optimizer values interval hi k hk]
    refine ⟨rfl, rfl, ?_⟩
    intro g hg
    simp only [LRSweeper.expectedState] at hg
    obtain ⟨a, -, rfl⟩ := List.mem_map.mp hg
    rfl

lemma exSweeper_make :
    LRSweeper.make ⟨[0]⟩ [1/10, 1/100] 2 = some exSweeper := by
  rw [LRSweeper.make_eq ⟨[0]⟩ [1/10, 1/100] 2 (by norm_num)
    (by simp)]
  rfl

/-- Claim C8 witness: `LRSweeper(opt, [0.1, 0.01], 2)` over a one-group
optimizer. -/
theorem claim_C8_witness :
    0 < 2 ∧ ([1/10, 1/100] : List ℚ) ≠ [] ∧
    LRSweeper.make ⟨[0]⟩ [1/10, 1/100] 2 = some exSweeper ∧
    ((exSweeper.get = ([1/10, 1/100] : List ℚ).getD 0 0 ∧
      ∀ g ∈ exSweeper.optimizer.param_groups,
        g = ([1/10, 1/100] : List ℚ).getD 0 0) ∧
     ∀ k, k < ([1/10, 1/100] : List ℚ).length * 2 →
       ((exSweeper.stepsIter k).2 = false ∧
        (exSweeper.stepsIter k).1.get =
          ([1/10, 1/100] : List ℚ).getD (k / 2) 0 ∧
        ∀ g ∈ (exSweeper.stepsIter k).1.optimizer.param_groups,
          g = ([1/10, 1/100] : List ℚ).getD (k / 2) 0)) :=
  ⟨by norm_num, by simp, exSweeper_make,
   claim_C8 ⟨[0]⟩ [1/10, 1/100] 2 (by norm_num) (by simp)
     exSweeper exSweeper_make⟩

/-- Claim C10: the `(len(values) * interval)`-th call to `step` raises
the assertion inside `set_lr`: the first `len(values) * interval - 1`
calls all succeed, the next call reports a failure, and on the resulting
state `index` has been incremented to `len(values)` (out of bounds) and
`steps` to `len(values) * interval`, while `lr` is untouched — the
mutations made before the assertion survive, and the dead
`if self.index == self.n - 1: pass` branch prevents none of it. -/
theorem claim_C10 (optimizer : Optimizer) (values : List ℚ) (interval : ℕ)
    (hi : 0 < interval) (hv : values ≠ []) (s0 : LRSweeper)
    (h0 : LRSweeper.make optimizer values interval = some s0) :
    (s0.stepsIter (values.length * interval - 1)).2 = false ∧
    (s0.stepsIter (values.length * interval)).2 = true ∧
    (s0.stepsIter (values.length * interval)).1.index = values.length ∧
    (s0.stepsIter (values.length * interval)).1.steps =
      values.length * interval ∧
    (s0.stepsIter (values.length * interval)).1.lr =
      (s0.stepsIter (values.length * interval - 1)).1.lr := by
  have hs0 : s0 = LRSweeper.expectedState optimizer values interval 0 := by
    have hmk := LRSweeper.make_eq optimizer values interval hi hv
    rw [h0] at hmk
    exact (Option.some.injEq _ _).mp hmk
  subst hs0
  obtain ⟨l, hl⟩ : ∃ l, values.length = l + 1 :=
    ⟨values.length - 1, by have := List.length_pos.mpr hv; omega⟩
  obtain ⟨j, hj⟩ : ∃ j, interval = j + 1 := ⟨interval - 1, by omega⟩
  obtain ⟨M, hM⟩ : ∃ M, values.length * interval = M + 1 := by
    refine ⟨values.length * interval - 1, ?_⟩
    have := Nat.mul_pos (List.length_pos.mpr hv) hi
    omega
  have hprod : (l + 1) * (j + 1) = M + 1 := by rw [← hl, ← hj]; exact hM
  have h1 : (l + 1) * (j + 1) = (j + (j + 1) * l) + 1 := by ring
  have hM' : M = j + (j + 1) * l :=
    (Nat.add_right_cancel (h1 ▸ hprod)).symm
  have hMdiv : M / interval = l := by
    rw [hM', hj, Nat.add_mul_div_left j l (Nat.succ_pos j),
      Nat.div_eq_of_lt (Nat.lt_succ_self j), Nat.zero_add]
  have hdvd : interval ∣ M + 1 := by
    rw [← hM]; exact dvd_mul_left interval values.length
  have hmod : (M + 1) % interval = 0 := Nat.dvd_iff_mod_eq_zero.mp hdvd
  have hidxfalse : ¬ (M / interval + 1 < values.length) := by
    rw [hMdiv, hl]; omega
  have hMlt : M < values.length * interval := by omega
  have hiterM := LRSweeper.stepsIter_expected optimizer values interval hi
    M hMlt
  have hstep : (LRSweeper.expectedState optimizer values interval M).step =
      ({ LRSweeper.expectedState optimizer values interval M with
          steps := M + 1, index := M / interval + 1 }, true) := by
    simp only [LRSweeper.step, LRSweeper.set_lr, LRSweeper.expectedState]
    rw [if_pos hmod, if_neg hidxfalse]
  have hfinal : (LRSweeper.expectedState optimizer values interval
      0).stepsIter (M + 1) =
      ({ LRSweeper.expectedState optimizer values interval M with
          steps := M + 1, index := M / interval + 1 }, true) := by
    simp only [LRSweeper.stepsIter, hiterM, hstep, Bool.false_or]
  simp only [hM, Nat.add_sub_cancel]
  refine ⟨by rw [hiterM], by rw [hfinal], ?_, by rw [hfinal], ?_⟩
  · rw [hfinal]
    show M / interval + 1 = values.length
    rw [hMdiv, hl]
  · rw [hfinal, hiterM]

/-- Claim C10 witness: `LRSweeper(opt, [0.1], 1)` raises on its first
`step` call, with `index` pushed to `1` and `steps` to `1`. -/
theorem claim_C10_witness :
    0 < 1 ∧ ([1/10] : List ℚ) ≠ [] ∧
    LRSweeper.make ⟨[0]⟩ [1/10] 1 = some exSweeper1 ∧
    ((exSweeper1.stepsIter (([1/10] : List ℚ).length * 1 - 1)).2 = false ∧
     (exSweeper1.stepsIter (([1/10] : List ℚ).length * 1)).2 = true ∧
     (exSweeper1.stepsIter (([1/10] : List ℚ).length * 1)).1.index =
       ([1/10] : List ℚ).length ∧
     (exSweeper1.stepsIter (([1/10] : List ℚ).length * 1)).1.steps =
       ([1/10] : List ℚ).length * 1 ∧
     (exSweeper1.stepsIter (([1/10] : List ℚ).length * 1)).1.lr =
       (exSweeper1.stepsIter
         (([1/10] : List ℚ).length * 1 - 1)).1.lr) :=
  ⟨Nat.one_pos, by simp,
   by rw [LRSweeper.make_eq ⟨[0]⟩ [1/10] 1 Nat.one_pos (by simp)]; rfl,
   claim_C10 ⟨[0]⟩ [1/10] 1 Nat.one_pos (by simp) exSweeper1
     (by rw [LRSweeper.make_eq ⟨[0]⟩ [1/10] 1 Nat.one_pos (by simp)]; rfl)⟩

/-- Claim C2 (code bug): the invariant `0 ≤ index < len(values)` is not
preserved by every `step` call.  On `LRSweeper(opt, [0.1], 1)` the very
first call to `step` increments `index` to `1 = len(values)` and the
assertion in `set_lr` fires with the out-of-bounds `index` already
stored: the state after the call violates the claimed bound.  The dead
`if self.index == self.n - 1: pass` branch suggests the intended guard
that is missing. -/
theorem claim_C2_code_bug :
    LRSweeper.make ⟨[0]⟩ [1/10] 1 = some exSweeper1 ∧
    exSweeper1.step.2 = true ∧
    exSweeper1.step.1.index = 1 ∧
    exSweeper1.step.1.n = 1 ∧
    ¬ (exSweeper1.step.1.index < exSweeper1.step.1.n) :=
  ⟨by rw [LRSweeper.make_eq ⟨[0]⟩ [1/10] 1 Nat.one_pos (by simp)]; rfl,
   rfl, rfl, rfl, by decide⟩

end IQN
